import Mathlib

/-!
Verification development for the lazy-mysql-wizard repository (src/app.py).

The file shallowly embeds the pure/algorithmic content of app.py:
  - run_query (app.py lines 52-79): SQL execution result shapes,
  - ask_ai_with_tools (lines 95-128): the request shape (offered tool schema)
    and the exception-to-message fallback,
  - DBViewerGUI._execute_sql_and_handle_tool_output (lines 368-396),
  - DBViewerGUI.run_sql_query (lines 412-441), send_chat (lines 490-553),
    continue_ai_conversation (lines 443-488), clear_chat (lines 606-611),
all sequentialized (threads in the source run one turn at a time).
Components the specification describes but app.py does not contain
(SqlIntentClassifier, ConversationStore.trim) are modelled from the
specification text and marked as such in their doc comments.

Python strings are modelled as Lean String, with the handful of Python
string methods used by app.py re-implemented over the character list so
that every definition evaluates by kernel reduction.
-/

namespace App

/-- Python str.strip(): drop leading and trailing whitespace. -/
def pyStrip (s : String) : String :=
  ⟨(((s.data.dropWhile Char.isWhitespace).reverse.dropWhile Char.isWhitespace).reverse)⟩

/-- Python str.lower() (ASCII, which is all app.py compares). -/
def pyLower (s : String) : String :=
  ⟨s.data.map Char.toLower⟩

/-- Python str.upper() (ASCII). -/
def pyUpper (s : String) : String :=
  ⟨s.data.map Char.toUpper⟩

/-- Python s.startswith(pre). -/
def pyStartsWith (s pre : String) : Bool :=
  pre.data.isPrefixOf s.data

/-- First whitespace-separated token of a string, Python `s.split()[0]`
    shape: none when the string has no token (where Python raises IndexError). -/
def firstWord (s : String) : Option String :=
  let cs := s.data.dropWhile Char.isWhitespace
  if cs.isEmpty then Option.none
  else some ⟨cs.takeWhile (fun c => !c.isWhitespace)⟩

/-- The check at app.py line 64: stripped, lowercased query starts with
    select or show. -/
def isSelectOrShow (q : String) : Bool :=
  pyStartsWith (pyLower (pyStrip q)) "select" || pyStartsWith (pyLower (pyStrip q)) "show"

/-! ## SqlIntentClassifier (modelled from the spec)

app.py contains no SqlIntentClassifier; the component lives in the other
near-duplicate variants of the program that are not under src/. -/

/-- Modelled from the spec: SqlIntentClassifier comment stripping, line-comment
    half. Removes `--` to end of line (the newline itself is kept). app.py does
    not contain this code; the definition follows section 4.1 of the spec.
    The Bool argument records being inside a line comment. -/
def stripLineAux : Bool → List Char → List Char
  | _, [] => []
  | true, '\n' :: rest => '\n' :: stripLineAux false rest
  | true, _ :: rest => stripLineAux true rest
  | false, '-' :: '-' :: rest => stripLineAux true rest
  | false, c :: rest => c :: stripLineAux false rest

/-- Modelled from the spec: SqlIntentClassifier comment stripping, block-comment
    half. Removes `/* ... */` including multi-line bodies. app.py does not
    contain this code; the definition follows section 4.1 of the spec.
    The Bool argument records being inside a block comment. -/
def stripBlockAux : Bool → List Char → List Char
  | _, [] => []
  | true, '*' :: '/' :: rest => stripBlockAux false rest
  | true, _ :: rest => stripBlockAux true rest
  | false, '/' :: '*' :: rest => stripBlockAux true rest
  | false, c :: rest => c :: stripBlockAux false rest

/-- Modelled from the spec: strip line comments then block comments. -/
def stripSqlComments (q : String) : String :=
  ⟨stripBlockAux false (stripLineAux false q.data)⟩

/-- SqlVerdict from section 3 of the spec: the uppercased first command token
    (none when no token remains) and its destructiveness. -/
structure SqlVerdict where
  command : Option String
  is_destructive : Bool
deriving DecidableEq, Repr

/-- Modelled from the spec: the fixed destructive command set of
    SqlIntentClassifier (section 4.1). -/
def destructive_commands : List String :=
  ["DELETE", "DROP", "TRUNCATE", "ALTER", "UPDATE", "INSERT", "CREATE", "GRANT", "REVOKE"]

/-- Modelled from the spec: SqlIntentClassifier.classify. Strips comments,
    takes the first whitespace-separated token uppercased as the command;
    destructive iff the command is in the fixed set; no token means not
    destructive. app.py does not contain this classifier; the definition
    follows section 4.1 of the spec. -/
def classify (q : String) : SqlVerdict :=
  match firstWord (stripSqlComments q) with
  | Option.none => ⟨Option.none, false⟩
  | some t =>
      let c := pyUpper t
      ⟨some c, destructive_commands.contains c⟩

/-! ## Database boundary and run_query (app.py lines 52-79) -/

/-- One result row, values already stringified (app.py serializes rows with
    a default-to-str JSON encoder; the row contents are otherwise opaque). -/
abbrev Row := List String

/-- Behaviour of the MySQL connection/cursor for one execution: whether
    cursor.execute raises (and the exception text), the cursor description,
    and the fetched rows. -/
structure DBConn where
  raises : Option String
  description : Option (List String)
  rows : List Row
deriving DecidableEq, Repr

/-- The second component of a Python run_query return value: a rows payload
    (SELECT/SHOW path), a message string (success or caught exception), or
    Python None (connection failure). -/
inductive RQPayload
  | rows (rs : List Row)
  | message (s : String)
  | nullPayload
deriving DecidableEq, Repr

/-- Observable outcome of run_query: the returned (columns, result) pair
    plus the two effects (commit issued, cursor.execute reached). -/
structure RQOut where
  columns : Option (List String)
  result : RQPayload
  committed : Bool
  executedOnDb : Bool
deriving DecidableEq, Repr

/-- run_query (app.py lines 52-79). A none connection models
    connect_to_database returning None (the function then returns
    (None, None)). Otherwise cursor.execute runs; an exception is caught and
    returned as (None, str(e)); a stripped-lowercase select/show query
    returns (columns, rows) — ([], []) when the cursor has no description —
    and any other query is committed and acknowledged with a success
    message. -/
def run_query (conn : Option DBConn) (query : String) : RQOut :=
  match conn with
  | Option.none => ⟨Option.none, .nullPayload, false, false⟩
  | some c =>
    match c.raises with
    | some e => ⟨Option.none, .message e, false, true⟩
    | Option.none =>
      if isSelectOrShow query then
        match c.description with
        | Option.none => ⟨some [], .rows [], false, true⟩
        | some cols => ⟨some cols, .rows c.rows, false, true⟩
      else
        ⟨Option.none, .message ("Query executed successfully: " ++ query), true, true⟩

/-! ## Messages, tool calls and request shapes -/

/-- Result of parsing one tool call's JSON arguments: json.loads at app.py
    lines 470 and 530 either yields a dict (from which only the query field is
    read, defaulting to the empty string) or raises JSONDecodeError. -/
inductive ToolArgs
  | ok (query : String)
  | malformed
deriving DecidableEq, Repr

/-- One tool call requested by the model (id, function name, raw arguments). -/
structure ToolCall where
  id : String
  name : String
  args : ToolArgs
deriving DecidableEq, Repr

/-- Content of a tool role message, app.py lines 385-393: the dict that is
    json.dumps-ed into the message content, holding the executed query and the
    full (columns, result) pair from run_query. -/
structure ToolContent where
  query_executed : String
  columns : Option (List String)
  result : RQPayload
deriving DecidableEq, Repr

/-- One chat message as appended to DBViewerGUI.chat_history, or (for the
    system constructor) prepended when building messages_for_ai. -/
inductive Msg
  | system (content : String)
  | user (content : String)
  | assistantText (content : String)
  | assistantToolCalls (tcs : List ToolCall)
  | tool (tool_call_id : String) (content : ToolContent)
deriving DecidableEq, Repr

/-- Is this a system role message? -/
def Msg.isSystem : Msg → Bool
  | .system _ => true
  | _ => false

/-- messages_for_ai at app.py lines 455 and 515: a single fresh system message
    prepended to the stored chat history. -/
def messages_for_ai (sysPrompt : String) (history : List Msg) : List Msg :=
  Msg.system sysPrompt :: history

/-- One parameter in an offered tool's JSON schema. -/
structure ToolParam where
  name : String
  type : String
  required : Bool
deriving DecidableEq, Repr

/-- One offered tool's schema (name plus parameters). -/
structure ToolSchema where
  name : String
  params : List ToolParam
deriving DecidableEq, Repr

/-- The single tool schema hard-coded in ask_ai_with_tools, app.py lines
    100-113: run_sql_query with one required string parameter query. -/
def run_sql_query_schema : ToolSchema :=
  ⟨"run_sql_query", [⟨"query", "string", true⟩]⟩

/-- The tools list offered on every ask_ai_with_tools request (app.py line
    122 passes exactly the list built at lines 100-113). -/
def toolsOffered : List ToolSchema := [run_sql_query_schema]

/-- Shape of one chat-completions request made through ask_ai_with_tools. -/
structure ChatRequest where
  messages : List Msg
  tools : List ToolSchema
  tool_choice : Option String
deriving DecidableEq, Repr

/-- The request ask_ai_with_tools sends (app.py lines 119-124): the given
    messages, the fixed tools list, tool_choice auto. Both send_chat (line
    517) and continue_ai_conversation (line 457) call this same function. -/
def ask_ai_with_tools_request (msgs : List Msg) : ChatRequest :=
  ⟨msgs, toolsOffered, some "auto"⟩

/-- The follow-up request issued by continue_ai_conversation (lines 448-457):
    a fresh system prompt prepended to the history, passed to
    ask_ai_with_tools — hence with the tools offered again. -/
def followupRequest (sysPrompt : String) (history : List Msg) : ChatRequest :=
  ask_ai_with_tools_request (messages_for_ai sysPrompt history)

/-- The raw message object ask_ai_with_tools yields: content and tool_calls
    attributes (either may be Python None). -/
structure RawMsg where
  content : Option String
  tool_calls : Option (List ToolCall)
deriving DecidableEq, Repr

/-- ask_ai_with_tools result handling (app.py lines 118-128): the API call
    either returns a message or raises, and an exception is caught and
    replaced by a synthetic object with content "AI Error: ..." and
    tool_calls None. -/
def ask_ai_with_tools_result (outcome : Except String RawMsg) : RawMsg :=
  match outcome with
  | .ok m => m
  | .error e => ⟨some ("AI Error: " ++ e), Option.none⟩

/-- The three-way branch shared by send_chat (lines 518-547) and
    continue_ai_conversation (lines 458-484). -/
inductive ModelResponse
  | toolCalls (tcs : List ToolCall)
  | contentResp (text : String)
  | emptyResp
deriving DecidableEq, Repr

/-- Branch selection on the response message, following Python truthiness:
    `if tool_calls:` (None and the empty list are falsy), then
    `elif get_content(...):` (None and the empty string are falsy). -/
def responseOf (m : RawMsg) : ModelResponse :=
  match m.tool_calls with
  | some (tc :: tcs) => .toolCalls (tc :: tcs)
  | _ =>
    match m.content with
    | some c => if c == "" then .emptyResp else .contentResp c
    | Option.none => .emptyResp

/-! ## The GUI turn loop as a sequential state machine

Threads in app.py run one turn at a time (send_chat is guarded by
is_ai_thinking, run_sql_query by is_query_running); the embedding
sequentializes each turn. A step returns the new state plus the name of an
uncaught Python exception when one escapes the worker thread body. -/

/-- The mutable DBViewerGUI state the claims are about: chat_history, the
    pending_tool_call slot, the SQL editor text, and two effect counters
    (database executions reached, schema refreshed). -/
structure GuiState where
  history : List Msg
  pending : Option ToolCall
  editor : String
  dbExecutions : Nat
  schemaRefreshed : Bool
deriving DecidableEq, Repr

/-- The state after DBViewerGUI.__init__ (app.py lines 148-151):
    empty chat history, no pending tool call, empty editor. -/
def initState : GuiState := ⟨[], Option.none, "", 0, false⟩

/-- clear_chat (app.py lines 606-611): chat_history becomes the empty list;
    pending_tool_call is not touched. -/
def clear_chat (st : GuiState) : GuiState :=
  { st with history := [] }

/-- The DDL set at app.py line 376 triggering a schema refresh. -/
def ddlRefreshSet : List String := ["create", "drop", "alter", "rename"]

/-- _execute_sql_and_handle_tool_output (app.py lines 368-396), with the
    run_query call inlined: executes the query, then evaluates the DDL check
    query.strip().split()[0] — which raises IndexError when the query has no
    token — and, when a tool call object was supplied, appends the tool
    message carrying the full (columns, result) capture. -/
def executeSqlTool (st : GuiState) (conn : Option DBConn) (query : String)
    (tcObj : Option ToolCall) : GuiState × Option String :=
  let out := run_query conn query
  let st := { st with dbExecutions := st.dbExecutions + (if out.executedOnDb then 1 else 0) }
  match firstWord (pyStrip query) with
  | Option.none => (st, some "IndexError")
  | some w =>
    let st := if ddlRefreshSet.contains (pyLower w) then { st with schemaRefreshed := true } else st
    match tcObj with
    | some tc =>
        ({ st with history := st.history ++ [Msg.tool tc.id ⟨query, out.columns, out.result⟩] },
         Option.none)
    | Option.none => (st, Option.none)

/-- run_sql_query (app.py lines 412-441), sequentialized: reads the stripped
    editor text, returns immediately when it is empty (leaving
    pending_tool_call in place), otherwise captures and clears
    pending_tool_call and runs _execute_sql_and_handle_tool_output. -/
def run_sql_query_gui (st : GuiState) (conn : Option DBConn) : GuiState × Option String :=
  let query := pyStrip st.editor
  if query == "" then (st, Option.none)
  else
    let captured := st.pending
    executeSqlTool { st with pending := Option.none } conn query captured

/-- Processing of one tool call inside send_chat's loop (app.py lines
    527-539): parse the arguments (json.loads may raise, uncaught), then for
    run_sql_query put the query in the editor, set pending_tool_call and call
    run_sql_query; other tool names only print a chat notice. -/
def processToolCall (st : GuiState) (conn : Option DBConn) (tc : ToolCall) :
    GuiState × Option String :=
  match tc.args with
  | .malformed => (st, some "JSONDecodeError")
  | .ok q =>
    if tc.name == "run_sql_query" then
      run_sql_query_gui { st with editor := q, pending := some tc } conn
    else
      (st, Option.none)

/-- send_chat's loop over the returned tool calls, stopping at the first
    uncaught exception. -/
def processToolCalls (st : GuiState) (conn : Option DBConn) :
    List ToolCall → GuiState × Option String
  | [] => (st, Option.none)
  | tc :: rest =>
    match processToolCall st conn tc with
    | (st', some e) => (st', some e)
    | (st', Option.none) => processToolCalls st' conn rest

/-- send_chat (app.py lines 490-553), one sequential turn: strip the entry
    text (empty input is ignored), append the user message, call the model
    (an API exception already surfaces as an "AI Error:" content message via
    ask_ai_with_tools), then branch on tool calls / content / fallback. -/
def send_chat (st : GuiState) (entryText : String) (outcome : Except String RawMsg)
    (conn : Option DBConn) : GuiState × Option String :=
  let userMsg := pyStrip entryText
  if userMsg == "" then (st, Option.none)
  else
    let st := { st with history := st.history ++ [Msg.user userMsg] }
    match responseOf (ask_ai_with_tools_result outcome) with
    | .toolCalls tcs =>
        let st := { st with history := st.history ++ [Msg.assistantToolCalls tcs] }
        processToolCalls st conn tcs
    | .contentResp t =>
        ({ st with history := st.history ++ [Msg.assistantText t] }, Option.none)
    | .emptyResp =>
        ({ st with history := st.history ++ [Msg.assistantText "AI did not provide a clear response."] },
         Option.none)

/-- Processing of one tool call inside continue_ai_conversation's loop
    (app.py lines 467-474): parse the arguments, and for run_sql_query call
    _execute_sql_and_handle_tool_output directly — without the editor
    round-trip and without the emptiness guard of run_sql_query. Other tool
    names are silently skipped. -/
def processContinueToolCall (st : GuiState) (conn : Option DBConn) (tc : ToolCall) :
    GuiState × Option String :=
  match tc.args with
  | .malformed => (st, some "JSONDecodeError")
  | .ok q =>
    if tc.name == "run_sql_query" then
      executeSqlTool st conn q (some tc)
    else
      (st, Option.none)

/-- continue_ai_conversation's loop over the returned tool calls. -/
def processContinueToolCalls (st : GuiState) (conn : Option DBConn) :
    List ToolCall → GuiState × Option String
  | [] => (st, Option.none)
  | tc :: rest =>
    match processContinueToolCall st conn tc with
    | (st', some e) => (st', some e)
    | (st', Option.none) => processContinueToolCalls st' conn rest

/-- continue_ai_conversation (app.py lines 443-488), one sequential step:
    call the model on the updated history and branch on tool calls /
    content / fallback. -/
def continue_ai_conversation (st : GuiState) (outcome : Except String RawMsg)
    (conn : Option DBConn) : GuiState × Option String :=
  match responseOf (ask_ai_with_tools_result outcome) with
  | .toolCalls tcs =>
      let st := { st with history := st.history ++ [Msg.assistantToolCalls tcs] }
      processContinueToolCalls st conn tcs
  | .contentResp t =>
      ({ st with history := st.history ++ [Msg.assistantText t] }, Option.none)
  | .emptyResp =>
      ({ st with history := st.history ++ [Msg.assistantText "AI did not provide a clear response or tool call."] },
       Option.none)

/-- Pressing Run Query with text q in the editor (the user-driven entry to
    run_sql_query). -/
def manualRun (st : GuiState) (q : String) (conn : Option DBConn) : GuiState × Option String :=
  run_sql_query_gui { st with editor := q } conn

/-- The user-or-model events that mutate the GUI state. -/
inductive Op
  | send (entryText : String) (outcome : Except String RawMsg) (conn : Option DBConn)
  | continueAi (outcome : Except String RawMsg) (conn : Option DBConn)
  | manual (q : String) (conn : Option DBConn)
  | clear

/-- Whether an event is the clear-chat event. -/
def Op.isClear : Op → Bool
  | .clear => true
  | _ => false

/-- One event step (the uncaught-exception flag is dropped: the thread dies,
    the object state remains). -/
def stepGui (st : GuiState) : Op → GuiState
  | .send t o c => (send_chat st t o c).1
  | .continueAi o c => (continue_ai_conversation st o c).1
  | .manual q c => (manualRun st q c).1
  | .clear => clear_chat st

/-- Running a sequence of events from a state. -/
def runOps (st : GuiState) (ops : List Op) : GuiState :=
  ops.foldl stepGui st

/-! ## ConversationStore.trim (modelled from the spec) -/

/-- Modelled from the spec: ConversationStore.trim (sections 3 and 4.3). No
    trim operation exists in src/app.py (send_chat never bounds the history);
    the definition follows the spec text: once the length exceeds the ceiling,
    keep message 0 plus the most recent maxLen-1 messages. -/
def trim (msgs : List Msg) (maxLen : Nat) : List Msg :=
  if maxLen < msgs.length then
    match msgs with
    | [] => []
    | m0 :: rest => m0 :: rest.drop (rest.length - (maxLen - 1))
  else msgs

/-! ## History well-formedness predicates -/

/-- The tool-call ids introduced by a message (nonempty only for an assistant
    message carrying tool calls). -/
def Msg.toolIds : Msg → List String
  | .assistantToolCalls tcs => tcs.map (·.id)
  | _ => []

/-- No system-role message present (chat_history never stores one; the system
    prompt is prepended per request). -/
def noSystemMsgs (h : List Msg) : Bool := h.all (fun m => !m.isSystem)

/-- A message is acceptable given the assistant tool-call ids seen so far:
    a tool message must reference one of them. -/
def msgRefOk (ids : List String) : Msg → Bool
  | .tool id _ => decide (id ∈ ids)
  | _ => true

/-- Accumulate assistant tool-call ids over a history, starting from ids. -/
def accIds (ids : List String) (h : List Msg) : List String :=
  h.foldl (fun a m => a ++ m.toolIds) ids

/-- All assistant tool-call ids of a history, in order. -/
def assistantIds (h : List Msg) : List String := accIds [] h

/-- Check every message against the ids accumulated before it. -/
def checkToolRefs (ids : List String) : List Msg → Bool
  | [] => true
  | m :: rest => msgRefOk ids m && checkToolRefs (ids ++ m.toolIds) rest

/-- The invariant of claim C8: every tool message references a tool_call_id
    of a preceding assistant message. -/
def toolRefsOk (h : List Msg) : Bool := checkToolRefs [] h

/-- The pending_tool_call slot is covered: its id is already recorded in an
    assistant message of the history. -/
def pendingOk (p : Option ToolCall) (h : List Msg) : Bool :=
  match p with
  | Option.none => true
  | some tc => decide (tc.id ∈ assistantIds h)

/-- Combined inductive invariant of the GUI state. -/
def guiInv (st : GuiState) : Bool :=
  toolRefsOk st.history && pendingOk st.pending st.history

/-- The possible uncaught-exception outcomes of a turn: no exception, a
    JSONDecodeError from tool-call argument parsing, or the IndexError of the
    DDL check on a token-free query. -/
def errUncaught (e : Option String) : Prop :=
  e = Option.none ∨ e = some "JSONDecodeError" ∨ e = some "IndexError"

/-! ## Concrete fixtures used by the claim-level theorems -/

/-- A connection whose cursor yields one column and one row. -/
def dbOk : DBConn := ⟨Option.none, some ["one"], [["1"]]⟩

/-- A connection for a non-select statement (no description needed). -/
def dbDdl : DBConn := ⟨Option.none, Option.none, []⟩

/-- A connection on which cursor.execute raises (e.g. an empty query). -/
def dbErr : DBConn := ⟨some "1065 (42000): Query was empty", Option.none, []⟩

/-- A model tool call asking to run a destructive statement. -/
def dropCall : ToolCall := ⟨"call_9", "run_sql_query", .ok "DROP TABLE users"⟩

/-- A model tool call whose query argument is empty: run_sql_query then
    returns early and pending_tool_call survives. -/
def staleToolCall : ToolCall := ⟨"call_1", "run_sql_query", .ok ""⟩

/-- A model tool call whose JSON arguments do not parse. -/
def emptyQueryCall : ToolCall := ⟨"call_7", "run_sql_query", .ok ""⟩

/-- Event trace for claim C8: a tool call with an empty query leaves
    pending_tool_call set, the chat is cleared, then a manual run attaches a
    tool message to the now-empty history. -/
def c8Trace : List Op :=
  [Op.send "please delete" (.ok ⟨Option.none, some [staleToolCall]⟩) (some dbOk),
   Op.clear,
   Op.manual "SELECT 1" (some dbOk)]

/-- A hundred-row result set, for the boundedness claim. -/
def manyRows : List Row := List.replicate 100 ["x"]

/-- A store of one system message plus twenty other messages, for the trim
    claim. -/
def sampleStore : List Msg :=
  Msg.system "sys" :: (List.range 20).map (fun i => Msg.user (String.mk [Char.ofNat (97 + i)]))

/-! ## Helper lemmas about the id accumulation -/

theorem accIds_nil (ids : List String) : accIds ids [] = ids := rfl

theorem accIds_cons (ids : List String) (m : Msg) (t : List Msg) :
    accIds ids (m :: t) = accIds (ids ++ m.toolIds) t := rfl

theorem accIds_eq (h : List Msg) : ∀ ids, accIds ids h = ids ++ accIds [] h := by
  induction h with
  | nil => intro ids; simp [accIds]
  | cons m t ih =>
      intro ids
      rw [accIds_cons, accIds_cons, ih (ids ++ m.toolIds), ih ([] ++ m.toolIds)]
      simp [List.append_assoc]

theorem assistantIds_append (h e : List Msg) :
    assistantIds (h ++ e) = assistantIds h ++ assistantIds e := by
  unfold assistantIds
  unfold accIds
  rw [List.foldl_append]
  exact accIds_eq e _

theorem mem_assistantIds_append_left {x : String} {h : List Msg} (e : List Msg)
    (hx : x ∈ assistantIds h) : x ∈ assistantIds (h ++ e) := by
  rw [assistantIds_append]
  exact List.mem_append_left _ hx

theorem checkToolRefs_append (h1 : List Msg) : ∀ ids h2,
    checkToolRefs ids (h1 ++ h2) =
      (checkToolRefs ids h1 && checkToolRefs (accIds ids h1) h2) := by
  induction h1 with
  | nil => intro ids h2; simp [checkToolRefs, accIds]
  | cons m t ih =>
      intro ids h2
      simp only [List.cons_append, checkToolRefs, List.append_eq, ih, accIds_cons, Bool.and_assoc]

theorem toolRefsOk_snoc (h : List Msg) (m : Msg) :
    toolRefsOk (h ++ [m]) = (toolRefsOk h && msgRefOk (assistantIds h) m) := by
  unfold toolRefsOk
  rw [checkToolRefs_append]
  simp [checkToolRefs, assistantIds]

theorem pendingOk_append (p : Option ToolCall) (h e : List Msg)
    (hp : pendingOk p h = true) : pendingOk p (h ++ e) = true := by
  cases p with
  | none => rfl
  | some tc =>
      simp only [pendingOk, decide_eq_true_eq] at hp ⊢
      exact mem_assistantIds_append_left e hp

theorem noSystemMsgs_append (h e : List Msg) :
    noSystemMsgs (h ++ e) = (noSystemMsgs h && noSystemMsgs e) := by
  simp [noSystemMsgs, List.all_append]

/-! ## History-extension lemmas: each turn step only appends messages, and
never appends a system message. -/

theorem executeSqlTool_hist (st : GuiState) (conn : Option DBConn) (q : String)
    (o : Option ToolCall) :
    ∃ extra, ((executeSqlTool st conn q o).1).history = st.history ++ extra ∧
      noSystemMsgs extra = true ∧
      ((executeSqlTool st conn q o).1).pending = st.pending := by
  cases o with
  | none =>
      refine ⟨[], ?_⟩
      unfold executeSqlTool
      split
      · simp [noSystemMsgs]
      · split <;> simp [noSystemMsgs]
  | some tc =>
      unfold executeSqlTool
      split
      · exact ⟨[], by simp [noSystemMsgs]⟩
      · refine ⟨[Msg.tool tc.id ⟨q, (run_query conn q).columns, (run_query conn q).result⟩], ?_⟩
        split <;> simp [noSystemMsgs, Msg.isSystem]

theorem run_sql_query_gui_hist (st : GuiState) (conn : Option DBConn) :
    ∃ extra, ((run_sql_query_gui st conn).1).history = st.history ++ extra ∧
      noSystemMsgs extra = true := by
  by_cases hq : pyStrip st.editor = ""
  · exact ⟨[], by simp [run_sql_query_gui, hq], by simp [noSystemMsgs]⟩
  · obtain ⟨extra, h1, h2, _⟩ := executeSqlTool_hist { st with pending := Option.none } conn
      (pyStrip st.editor) st.pending
    refine ⟨extra, ?_, h2⟩
    simpa [run_sql_query_gui, hq] using h1

theorem processToolCall_hist (st : GuiState) (conn : Option DBConn) (tc : ToolCall) :
    ∃ extra, ((processToolCall st conn tc).1).history = st.history ++ extra ∧
      noSystemMsgs extra = true := by
  unfold processToolCall
  cases tc.args with
  | malformed => exact ⟨[], by simp [noSystemMsgs]⟩
  | ok q =>
      simp only []
      split
      · obtain ⟨extra, h1, h2⟩ := run_sql_query_gui_hist
          { st with editor := q, pending := some tc } conn
        exact ⟨extra, h1, h2⟩
      · exact ⟨[], by simp [noSystemMsgs]⟩

theorem processToolCalls_hist (tcs : List ToolCall) : ∀ (st : GuiState) (conn : Option DBConn),
    ∃ extra, ((processToolCalls st conn tcs).1).history = st.history ++ extra ∧
      noSystemMsgs extra = true := by
  induction tcs with
  | nil => intro st conn; exact ⟨[], by simp [processToolCalls, noSystemMsgs]⟩
  | cons tc rest ih =>
      intro st conn
      unfold processToolCalls
      obtain ⟨e1, he1, hs1⟩ := processToolCall_hist st conn tc
      cases hres : processToolCall st conn tc with
      | mk st' err =>
          rw [hres] at he1
          simp only [] at he1
          cases err with
          | some e => exact ⟨e1, he1, hs1⟩
          | none =>
              obtain ⟨e2, he2, hs2⟩ := ih st' conn
              exact ⟨e1 ++ e2, by rw [he2, he1, List.append_assoc],
                by simp [noSystemMsgs_append, hs1, hs2]⟩

theorem processContinueToolCall_hist (st : GuiState) (conn : Option DBConn) (tc : ToolCall) :
    ∃ extra, ((processContinueToolCall st conn tc).1).history = st.history ++ extra ∧
      noSystemMsgs extra = true := by
  unfold processContinueToolCall
  cases tc.args with
  | malformed => exact ⟨[], by simp [noSystemMsgs]⟩
  | ok q =>
      simp only []
      split
      · obtain ⟨extra, h1, h2, _⟩ := executeSqlTool_hist st conn q (some tc)
        exact ⟨extra, h1, h2⟩
      · exact ⟨[], by simp [noSystemMsgs]⟩

theorem processContinueToolCalls_hist (tcs : List ToolCall) :
    ∀ (st : GuiState) (conn : Option DBConn),
    ∃ extra, ((processContinueToolCalls st conn tcs).1).history = st.history ++ extra ∧
      noSystemMsgs extra = true := by
  induction tcs with
  | nil => intro st conn; exact ⟨[], by simp [processContinueToolCalls, noSystemMsgs]⟩
  | cons tc rest ih =>
      intro st conn
      unfold processContinueToolCalls
      obtain ⟨e1, he1, hs1⟩ := processContinueToolCall_hist st conn tc
      cases hres : processContinueToolCall st conn tc with
      | mk st' err =>
          rw [hres] at he1
          simp only [] at he1
          cases err with
          | some e => exact ⟨e1, he1, hs1⟩
          | none =>
              obtain ⟨e2, he2, hs2⟩ := ih st' conn
              exact ⟨e1 ++ e2, by rw [he2, he1, List.append_assoc],
                by simp [noSystemMsgs_append, hs1, hs2]⟩

theorem send_chat_hist (st : GuiState) (t : String) (o : Except String RawMsg)
    (conn : Option DBConn) :
    ∃ extra, ((send_chat st t o conn).1).history = st.history ++ extra ∧
      noSystemMsgs extra = true := by
  by_cases ht : pyStrip t = ""
  · exact ⟨[], by simp [send_chat, ht], by simp [noSystemMsgs]⟩
  · cases hr : responseOf (ask_ai_with_tools_result o) with
    | toolCalls tcs =>
        obtain ⟨e2, he2, hs2⟩ := processToolCalls_hist tcs
          ⟨st.history ++ [Msg.user (pyStrip t), Msg.assistantToolCalls tcs],
            st.pending, st.editor, st.dbExecutions, st.schemaRefreshed⟩ conn
        refine ⟨[Msg.user (pyStrip t)] ++ [Msg.assistantToolCalls tcs] ++ e2, ?_, ?_⟩
        · simp only [] at he2
          simp [send_chat, hr, ht, he2, List.append_assoc]
        · rw [noSystemMsgs_append, noSystemMsgs_append, hs2]
          simp [noSystemMsgs, Msg.isSystem]
    | contentResp c =>
        exact ⟨[Msg.user (pyStrip t), Msg.assistantText c],
          by simp [send_chat, ht, hr, List.append_assoc],
          by simp [noSystemMsgs, Msg.isSystem]⟩
    | emptyResp =>
        exact ⟨[Msg.user (pyStrip t), Msg.assistantText "AI did not provide a clear response."],
          by simp [send_chat, ht, hr, List.append_assoc],
          by simp [noSystemMsgs, Msg.isSystem]⟩

theorem continue_ai_conversation_hist (st : GuiState) (o : Except String RawMsg)
    (conn : Option DBConn) :
    ∃ extra, ((continue_ai_conversation st o conn).1).history = st.history ++ extra ∧
      noSystemMsgs extra = true := by
  cases hr : responseOf (ask_ai_with_tools_result o) with
  | toolCalls tcs =>
      obtain ⟨e2, he2, hs2⟩ := processContinueToolCalls_hist tcs
        ⟨st.history ++ [Msg.assistantToolCalls tcs],
          st.pending, st.editor, st.dbExecutions, st.schemaRefreshed⟩ conn
      refine ⟨[Msg.assistantToolCalls tcs] ++ e2, ?_, ?_⟩
      · simp only [continue_ai_conversation, hr]
        simp only [] at he2
        simp [he2, List.append_assoc]
      · rw [noSystemMsgs_append, hs2]
        simp [noSystemMsgs, Msg.isSystem]
  | contentResp c =>
      exact ⟨[Msg.assistantText c], by simp [continue_ai_conversation, hr],
        by simp [noSystemMsgs, Msg.isSystem]⟩
  | emptyResp =>
      exact ⟨[Msg.assistantText "AI did not provide a clear response or tool call."],
        by simp [continue_ai_conversation, hr], by simp [noSystemMsgs, Msg.isSystem]⟩

theorem manualRun_hist (st : GuiState) (q : String) (conn : Option DBConn) :
    ∃ extra, ((manualRun st q conn).1).history = st.history ++ extra ∧
      noSystemMsgs extra = true := by
  unfold manualRun
  obtain ⟨extra, h1, h2⟩ := run_sql_query_gui_hist { st with editor := q } conn
  exact ⟨extra, h1, h2⟩

/-- Every event keeps the stored history free of system messages. -/
theorem stepGui_noSystem (st : GuiState) (op : Op)
    (h : noSystemMsgs st.history = true) : noSystemMsgs (stepGui st op).history = true := by
  cases op with
  | send t o c =>
      obtain ⟨e, he, hs⟩ := send_chat_hist st t o c
      simp only [stepGui, he, noSystemMsgs_append, h, hs, Bool.and_self]
  | continueAi o c =>
      obtain ⟨e, he, hs⟩ := continue_ai_conversation_hist st o c
      simp only [stepGui, he, noSystemMsgs_append, h, hs, Bool.and_self]
  | manual q c =>
      obtain ⟨e, he, hs⟩ := manualRun_hist st q c
      simp only [stepGui, he, noSystemMsgs_append, h, hs, Bool.and_self]
  | clear => simp [stepGui, clear_chat, noSystemMsgs]

/-! ## Preservation of the tool-reference invariant -/

theorem guiInv_split {st : GuiState} (h : guiInv st = true) :
    toolRefsOk st.history = true ∧ pendingOk st.pending st.history = true := by
  simpa [guiInv, Bool.and_eq_true] using h

theorem executeSqlTool_inv (st : GuiState) (conn : Option DBConn) (q : String)
    (o : Option ToolCall) (hinv : guiInv st = true)
    (ho : ∀ tc, o = some tc → tc.id ∈ assistantIds st.history) :
    guiInv ((executeSqlTool st conn q o).1) = true := by
  obtain ⟨h1, h2⟩ := guiInv_split hinv
  cases o with
  | none =>
      unfold executeSqlTool
      split
      · simpa [guiInv] using hinv
      · split <;> simpa [guiInv] using hinv
  | some tc =>
      have htc := ho tc rfl
      unfold executeSqlTool
      split
      · simpa [guiInv] using hinv
      · split <;>
        · simp only [guiInv, Bool.and_eq_true]
          constructor
          · simp [toolRefsOk_snoc, msgRefOk, h1, htc]
          · exact pendingOk_append _ _ _ h2

theorem run_sql_query_gui_inv (st : GuiState) (conn : Option DBConn)
    (hinv : guiInv st = true) : guiInv ((run_sql_query_gui st conn).1) = true := by
  obtain ⟨h1, h2⟩ := guiInv_split hinv
  by_cases hq : pyStrip st.editor = ""
  · simpa [run_sql_query_gui, hq] using hinv
  · have hbase : guiInv { st with pending := Option.none } = true := by
      simp [guiInv, pendingOk, h1]
    have hx := executeSqlTool_inv { st with pending := Option.none } conn
      (pyStrip st.editor) st.pending hbase ?_
    · simpa [run_sql_query_gui, hq] using hx
    · intro tc htc
      rw [htc] at h2
      simpa [pendingOk] using h2

theorem processToolCall_inv (st : GuiState) (conn : Option DBConn) (tc : ToolCall)
    (hinv : guiInv st = true) (htc : tc.id ∈ assistantIds st.history) :
    guiInv ((processToolCall st conn tc).1) = true := by
  obtain ⟨h1, _⟩ := guiInv_split hinv
  unfold processToolCall
  cases harg : tc.args with
  | malformed => simpa using hinv
  | ok q =>
      simp only []
      split
      · apply run_sql_query_gui_inv
        simp [guiInv, pendingOk, h1, htc]
      · simpa using hinv

theorem processToolCalls_inv (tcs : List ToolCall) : ∀ (st : GuiState) (conn : Option DBConn),
    guiInv st = true → (∀ tc ∈ tcs, tc.id ∈ assistantIds st.history) →
    guiInv ((processToolCalls st conn tcs).1) = true := by
  induction tcs with
  | nil => intro st conn h _; simpa [processToolCalls] using h
  | cons tc rest ih =>
      intro st conn h hmem
      unfold processToolCalls
      have hone := processToolCall_inv st conn tc h (hmem tc (by simp))
      obtain ⟨e1, he1, _⟩ := processToolCall_hist st conn tc
      cases hres : processToolCall st conn tc with
      | mk st' err =>
          rw [hres] at hone he1
          simp only [] at hone he1
          cases err with
          | some e => simpa using hone
          | none =>
              apply ih st' conn hone
              intro tc' htc'
              rw [he1]
              exact mem_assistantIds_append_left e1 (hmem tc' (by simp [htc']))

theorem processContinueToolCall_inv (st : GuiState) (conn : Option DBConn) (tc : ToolCall)
    (hinv : guiInv st = true) (htc : tc.id ∈ assistantIds st.history) :
    guiInv ((processContinueToolCall st conn tc).1) = true := by
  unfold processContinueToolCall
  cases harg : tc.args with
  | malformed => simpa using hinv
  | ok q =>
      simp only []
      split
      · apply executeSqlTool_inv st conn q (some tc) hinv
        intro tc' htc'
        cases htc'
        exact htc
      · simpa using hinv

theorem processContinueToolCalls_inv (tcs : List ToolCall) :
    ∀ (st : GuiState) (conn : Option DBConn),
    guiInv st = true → (∀ tc ∈ tcs, tc.id ∈ assistantIds st.history) →
    guiInv ((processContinueToolCalls st conn tcs).1) = true := by
  induction tcs with
  | nil => intro st conn h _; simpa [processContinueToolCalls] using h
  | cons tc rest ih =>
      intro st conn h hmem
      unfold processContinueToolCalls
      have hone := processContinueToolCall_inv st conn tc h (hmem tc (by simp))
      obtain ⟨e1, he1, _⟩ := processContinueToolCall_hist st conn tc
      cases hres : processContinueToolCall st conn tc with
      | mk st' err =>
          rw [hres] at hone he1
          simp only [] at hone he1
          cases err with
          | some e => simpa using hone
          | none =>
              apply ih st' conn hone
              intro tc' htc'
              rw [he1]
              exact mem_assistantIds_append_left e1 (hmem tc' (by simp [htc']))

theorem send_chat_inv (st : GuiState) (t : String) (o : Except String RawMsg)
    (conn : Option DBConn) (hinv : guiInv st = true) :
    guiInv ((send_chat st t o conn).1) = true := by
  obtain ⟨h1, h2⟩ := guiInv_split hinv
  by_cases ht : pyStrip t = ""
  · simpa [send_chat, ht] using hinv
  · cases hr : responseOf (ask_ai_with_tools_result o) with
    | toolCalls tcs =>
        have hST : guiInv ⟨st.history ++ [Msg.user (pyStrip t), Msg.assistantToolCalls tcs],
            st.pending, st.editor, st.dbExecutions, st.schemaRefreshed⟩ = true := by
          simp only [guiInv, Bool.and_eq_true]
          constructor
          · unfold toolRefsOk
            rw [checkToolRefs_append]
            simp [checkToolRefs, msgRefOk, h1, toolRefsOk] at h1 ⊢
            exact h1
          · exact pendingOk_append _ _ _ h2
        have hmem : ∀ tc ∈ tcs, tc.id ∈ assistantIds
            (st.history ++ [Msg.user (pyStrip t), Msg.assistantToolCalls tcs]) := by
          intro tc htc
          rw [assistantIds_append]
          refine List.mem_append_right _ ?_
          simp [assistantIds, accIds, Msg.toolIds]
          exact ⟨tc, htc, rfl⟩
        have := processToolCalls_inv tcs _ conn hST hmem
        simpa [send_chat, ht, hr] using this
    | contentResp c =>
        have : guiInv ⟨st.history ++ [Msg.user (pyStrip t), Msg.assistantText c],
            st.pending, st.editor, st.dbExecutions, st.schemaRefreshed⟩ = true := by
          simp only [guiInv, Bool.and_eq_true]
          constructor
          · unfold toolRefsOk
            rw [checkToolRefs_append]
            simp [checkToolRefs, msgRefOk, toolRefsOk] at h1 ⊢
            exact h1
          · exact pendingOk_append _ _ _ h2
        simpa [send_chat, ht, hr] using this
    | emptyResp =>
        have : guiInv ⟨st.history ++
            [Msg.user (pyStrip t), Msg.assistantText "AI did not provide a clear response."],
            st.pending, st.editor, st.dbExecutions, st.schemaRefreshed⟩ = true := by
          simp only [guiInv, Bool.and_eq_true]
          constructor
          · unfold toolRefsOk
            rw [checkToolRefs_append]
            simp [checkToolRefs, msgRefOk, toolRefsOk] at h1 ⊢
            exact h1
          · exact pendingOk_append _ _ _ h2
        simpa [send_chat, ht, hr] using this

theorem continue_ai_conversation_inv (st : GuiState) (o : Except String RawMsg)
    (conn : Option DBConn) (hinv : guiInv st = true) :
    guiInv ((continue_ai_conversation st o conn).1) = true := by
  obtain ⟨h1, h2⟩ := guiInv_split hinv
  cases hr : responseOf (ask_ai_with_tools_result o) with
  | toolCalls tcs =>
      have hST : guiInv ⟨st.history ++ [Msg.assistantToolCalls tcs],
          st.pending, st.editor, st.dbExecutions, st.schemaRefreshed⟩ = true := by
        simp only [guiInv, Bool.and_eq_true]
        constructor
        · simp [toolRefsOk_snoc, msgRefOk, h1]
        · exact pendingOk_append _ _ _ h2
      have hmem : ∀ tc ∈ tcs, tc.id ∈ assistantIds
          (st.history ++ [Msg.assistantToolCalls tcs]) := by
        intro tc htc
        rw [assistantIds_append]
        refine List.mem_append_right _ ?_
        simp [assistantIds, accIds, Msg.toolIds]
        exact ⟨tc, htc, rfl⟩
      have := processContinueToolCalls_inv tcs _ conn hST hmem
      simpa [continue_ai_conversation, hr] using this
  | contentResp c =>
      have : guiInv ⟨st.history ++ [Msg.assistantText c],
          st.pending, st.editor, st.dbExecutions, st.schemaRefreshed⟩ = true := by
        simp only [guiInv, Bool.and_eq_true]
        exact ⟨by simp [toolRefsOk_snoc, msgRefOk, h1], pendingOk_append _ _ _ h2⟩
      simpa [continue_ai_conversation, hr] using this
  | emptyResp =>
      have : guiInv ⟨st.history ++
          [Msg.assistantText "AI did not provide a clear response or tool call."],
          st.pending, st.editor, st.dbExecutions, st.schemaRefreshed⟩ = true := by
        simp only [guiInv, Bool.and_eq_true]
        exact ⟨by simp [toolRefsOk_snoc, msgRefOk, h1], pendingOk_append _ _ _ h2⟩
      simpa [continue_ai_conversation, hr] using this

/-- Every event other than clear-chat preserves the combined invariant. -/
theorem stepGui_inv (st : GuiState) (op : Op) (hinv : guiInv st = true)
    (hop : op.isClear = false) : guiInv (stepGui st op) = true := by
  cases op with
  | send t o c => exact send_chat_inv st t o c hinv
  | continueAi o c => exact continue_ai_conversation_inv st o c hinv
  | manual q c =>
      have : guiInv { st with editor := q } = true := by simpa [guiInv] using hinv
      exact run_sql_query_gui_inv _ c this
  | clear => simp [Op.isClear] at hop

theorem runOps_inv (ops : List Op) : ∀ st : GuiState, guiInv st = true →
    (ops.all fun op => !op.isClear) = true → guiInv (runOps st ops) = true := by
  induction ops with
  | nil => intro st h _; simpa [runOps] using h
  | cons op rest ih =>
      intro st h hall
      simp only [List.all_cons, Bool.and_eq_true, Bool.not_eq_true'] at hall
      have h1 := stepGui_inv st op h hall.1
      have := ih (stepGui st op) h1 hall.2
      simpa [runOps, List.foldl_cons] using this

theorem runOps_noSystem (ops : List Op) : ∀ st : GuiState,
    noSystemMsgs st.history = true → noSystemMsgs (runOps st ops).history = true := by
  induction ops with
  | nil => intro st h; simpa [runOps] using h
  | cons op rest ih =>
      intro st h
      have := ih (stepGui st op) (stepGui_noSystem st op h)
      simpa [runOps, List.foldl_cons] using this

/-- The fallback content produced for a model-client exception is never the
    empty string, so the content branch is taken. -/
theorem ai_error_ne_empty (e : String) : (("AI Error: " ++ e) == "") = false := by
  rw [beq_eq_false_iff_ne]
  intro hc
  have hdata : "AI Error: ".data ++ e.data = [] := by
    rw [← String.data_append, hc]
  simp only [List.append_eq_nil] at hdata
  exact absurd hdata.1 (by decide)

theorem executeSqlTool_err (st : GuiState) (conn : Option DBConn) (q : String)
    (o : Option ToolCall) : errUncaught (executeSqlTool st conn q o).2 := by
  unfold executeSqlTool
  split
  · exact Or.inr (Or.inr rfl)
  · cases o with
    | none => exact Or.inl rfl
    | some tc => exact Or.inl rfl

theorem run_sql_query_gui_err (st : GuiState) (conn : Option DBConn) :
    errUncaught (run_sql_query_gui st conn).2 := by
  by_cases hq : pyStrip st.editor = ""
  · exact Or.inl (by simp [run_sql_query_gui, hq])
  · have heq : run_sql_query_gui st conn =
        executeSqlTool { st with pending := Option.none } conn (pyStrip st.editor) st.pending := by
      simp [run_sql_query_gui, hq]
    rw [heq]
    exact executeSqlTool_err _ conn _ st.pending

theorem processToolCall_err (st : GuiState) (conn : Option DBConn) (tc : ToolCall) :
    errUncaught (processToolCall st conn tc).2 := by
  unfold processToolCall
  cases tc.args with
  | malformed => exact Or.inr (Or.inl rfl)
  | ok q =>
      simp only []
      split
      · exact run_sql_query_gui_err _ conn
      · exact Or.inl rfl

theorem processToolCalls_err (tcs : List ToolCall) : ∀ (st : GuiState) (conn : Option DBConn),
    errUncaught (processToolCalls st conn tcs).2 := by
  induction tcs with
  | nil => intro st conn; exact Or.inl rfl
  | cons tc rest ih =>
      intro st conn
      unfold processToolCalls
      have hone := processToolCall_err st conn tc
      cases hres : processToolCall st conn tc with
      | mk st' err =>
          rw [hres] at hone
          cases err with
          | some e => simpa using hone
          | none => simpa using ih st' conn

theorem send_chat_err (st : GuiState) (t : String) (o : Except String RawMsg)
    (conn : Option DBConn) : errUncaught (send_chat st t o conn).2 := by
  by_cases ht : pyStrip t = ""
  · exact Or.inl (by simp [send_chat, ht])
  · cases hr : responseOf (ask_ai_with_tools_result o) with
    | toolCalls tcs =>
        have := processToolCalls_err tcs
          ⟨st.history ++ [Msg.user (pyStrip t), Msg.assistantToolCalls tcs],
            st.pending, st.editor, st.dbExecutions, st.schemaRefreshed⟩ conn
        unfold errUncaught at this ⊢
        simpa [send_chat, ht, hr] using this
    | contentResp c => exact Or.inl (by simp [send_chat, ht, hr])
    | emptyResp => exact Or.inl (by simp [send_chat, ht, hr])

theorem processContinueToolCall_err (st : GuiState) (conn : Option DBConn) (tc : ToolCall) :
    errUncaught (processContinueToolCall st conn tc).2 := by
  unfold processContinueToolCall
  cases tc.args with
  | malformed => exact Or.inr (Or.inl rfl)
  | ok q =>
      simp only []
      split
      · exact executeSqlTool_err st conn q (some tc)
      · exact Or.inl rfl

theorem processContinueToolCalls_err (tcs : List ToolCall) :
    ∀ (st : GuiState) (conn : Option DBConn),
    errUncaught (processContinueToolCalls st conn tcs).2 := by
  induction tcs with
  | nil => intro st conn; exact Or.inl rfl
  | cons tc rest ih =>
      intro st conn
      unfold processContinueToolCalls
      have hone := processContinueToolCall_err st conn tc
      cases hres : processContinueToolCall st conn tc with
      | mk st' err =>
          rw [hres] at hone
          cases err with
          | some e => simpa using hone
          | none => simpa using ih st' conn

theorem continue_ai_conversation_err (st : GuiState) (o : Except String RawMsg)
    (conn : Option DBConn) : errUncaught (continue_ai_conversation st o conn).2 := by
  cases hr : responseOf (ask_ai_with_tools_result o) with
  | toolCalls tcs =>
      have := processContinueToolCalls_err tcs
        ⟨st.history ++ [Msg.assistantToolCalls tcs],
          st.pending, st.editor, st.dbExecutions, st.schemaRefreshed⟩ conn
      unfold errUncaught at this ⊢
      simpa [continue_ai_conversation, hr] using this
  | contentResp c => exact Or.inl (by simp [continue_ai_conversation, hr])
  | emptyResp => exact Or.inl (by simp [continue_ai_conversation, hr])

/-- The database-execution counter always advances by exactly the run_query
    execution effect. -/
theorem executeSqlTool_dbExec (st : GuiState) (conn : Option DBConn) (q : String)
    (o : Option ToolCall) :
    (executeSqlTool st conn q o).1.dbExecutions =
      st.dbExecutions + (if (run_query conn q).executedOnDb then 1 else 0) := by
  unfold executeSqlTool
  split
  · rfl
  · cases o with
    | none => split <;> rfl
    | some tc => split <;> rfl

/-! ## Claim theorems -/

/-- C2: classify strips `--` line comments and block comments, takes the first
    whitespace-separated token uppercased as the command (is_destructive false
    when no token remains; total, hence never raises), and is destructive
    exactly when the command is in the fixed destructive set; in particular a
    line comment followed by DELETE classifies as a destructive DELETE, and
    SELECT/SHOW/DESCRIBE/EXPLAIN are not destructive. -/
theorem C2_classify_spec :
    (∀ q : String, (classify q).is_destructive = true ↔
        ∃ c, (classify q).command = some c ∧ c ∈ destructive_commands) ∧
    (∀ q : String, (classify q).command = Option.none → (classify q).is_destructive = false) ∧
    classify "" = ⟨Option.none, false⟩ ∧
    classify "   " = ⟨Option.none, false⟩ ∧
    classify "-- note\nDELETE FROM t" = ⟨some "DELETE", true⟩ ∧
    classify "/* block\ncomment */ drop TABLE users" = ⟨some "DROP", true⟩ ∧
    (classify "SELECT * FROM t").is_destructive = false ∧
    (classify "SHOW TABLES").is_destructive = false ∧
    (classify "DESCRIBE t").is_destructive = false ∧
    (classify "EXPLAIN SELECT 1").is_destructive = false := by
  refine ⟨?_, ?_, by decide, by decide, by decide, by decide, by decide, by decide,
    by decide, by decide⟩
  · intro q
    unfold classify
    cases hf : firstWord (stripSqlComments q) with
    | none => simp
    | some t => simp
  · intro q
    unfold classify
    cases hf : firstWord (stripSqlComments q) with
    | none => simp
    | some t => simp

/-- Witness for C2: the destructiveness criterion applied at a concrete
    no-token input. -/
theorem C2_classify_spec_witness : (classify "-- only a comment").is_destructive = false :=
  C2_classify_spec.2.1 "-- only a comment" (by decide)

/-- C10: with a connection, run_query yields a (columns, rows) pair exactly
    when the stripped lowercased query starts with select or show (([], [])
    when the cursor has no description), commits and acknowledges every other
    query with a success message, and converts an execution exception into a
    (None, str(e)) return of the same shape as the success message; it is a
    total function, hence never raises. -/
theorem C10_run_query_behavior (c : DBConn) (q : String) :
    (c.raises = Option.none →
      ((∃ cols rs, (run_query (some c) q).columns = some cols ∧
          (run_query (some c) q).result = RQPayload.rows rs) ↔ isSelectOrShow q = true) ∧
      (isSelectOrShow q = true → c.description = Option.none →
        run_query (some c) q = ⟨some [], RQPayload.rows [], false, true⟩) ∧
      (isSelectOrShow q = true → ∀ cols, c.description = some cols →
        run_query (some c) q = ⟨some cols, RQPayload.rows c.rows, false, true⟩) ∧
      (isSelectOrShow q = false →
        run_query (some c) q =
          ⟨Option.none, RQPayload.message ("Query executed successfully: " ++ q), true, true⟩)) ∧
    (∀ e, c.raises = some e →
      run_query (some c) q = ⟨Option.none, RQPayload.message e, false, true⟩) := by
  constructor
  · intro hra
    refine ⟨?_, ?_, ?_, ?_⟩
    · by_cases hsel : isSelectOrShow q = true
      · cases hd : c.description with
        | none => simp [run_query, hra, hsel, hd]
        | some cols => simp [run_query, hra, hsel, hd]
      · rw [Bool.not_eq_true] at hsel
        simp [run_query, hra, hsel]
    · intro hsel hd
      simp [run_query, hra, hsel, hd]
    · intro hsel cols hd
      simp [run_query, hra, hsel, hd]
    · intro hsel
      simp [run_query, hra, hsel]
  · intro e hra
    simp [run_query, hra]

/-- Witness for C10: a non-select statement on a healthy connection commits
    and returns the success message. -/
theorem C10_run_query_behavior_witness :
    run_query (some dbDdl) "UPDATE t SET x = 1" =
      ⟨Option.none, RQPayload.message "Query executed successfully: UPDATE t SET x = 1",
        true, true⟩ :=
  ((C10_run_query_behavior dbDdl "UPDATE t SET x = 1").1 rfl).2.2.2 (by decide)

/-- C4: once the history exceeds the ceiling, trim keeps message 0 plus the
    most recent maxLen-1 messages; it leaves shorter histories unchanged and
    is idempotent; a 1-system-plus-20 store with ceiling 12 trims to exactly
    12 messages with message 0 unchanged and the remaining 11 the most
    recent. -/
theorem C4_trim_correct :
    (∀ (msgs : List Msg) (n : Nat), 1 ≤ n → n < msgs.length →
      (trim msgs n).length = n ∧ (trim msgs n).head? = msgs.head? ∧
      (trim msgs n).tail = msgs.drop (msgs.length - (n - 1))) ∧
    (∀ (msgs : List Msg) (n : Nat), msgs.length ≤ n → trim msgs n = msgs) ∧
    (∀ (msgs : List Msg) (n : Nat), trim (trim msgs n) n = trim msgs n) ∧
    (trim sampleStore 12).length = 12 ∧
    (trim sampleStore 12).head? = some (Msg.system "sys") ∧
    (trim sampleStore 12).tail = sampleStore.drop 10 := by
  refine ⟨?_, ?_, ?_, by decide, by decide, by decide⟩
  · intro msgs n h1 h2
    cases msgs with
    | nil => simp at h2
    | cons m0 rest =>
        rw [trim.eq_def, if_pos h2]
        simp only []
        have hr : n - 1 ≤ rest.length := by
          simp only [List.length_cons] at h2
          omega
        refine ⟨?_, rfl, ?_⟩
        · simp only [List.length_cons, List.length_drop]
          omega
        · have harith : (m0 :: rest).length - (n - 1) = (rest.length - (n - 1)) + 1 := by
            simp only [List.length_cons]
            omega
          rw [harith, List.drop_succ_cons]
          rfl
  · intro msgs n h
    rw [trim.eq_def, if_neg (by omega)]
  · intro msgs n
    by_cases h : n < msgs.length
    · cases msgs with
      | nil => simp at h
      | cons m0 rest =>
          have hinner : trim (m0 :: rest) n = m0 :: rest.drop (rest.length - (n - 1)) := by
            rw [trim.eq_def, if_pos h]
          rw [hinner]
          by_cases hn : 1 ≤ n
          · have hr : n - 1 ≤ rest.length := by
              simp only [List.length_cons] at h
              omega
            rw [trim.eq_def, if_neg]
            simp only [List.length_cons, List.length_drop]
            omega
          · have hn0 : n = 0 := by omega
            subst hn0
            simp [trim, List.drop_length]
    · have hinner : trim msgs n = msgs := by rw [trim.eq_def, if_neg h]
      rw [hinner, hinner]

/-- Witness for C4: trimming a three-message history with ceiling 2. -/
theorem C4_trim_correct_witness :
    (trim [Msg.system "s", Msg.user "a", Msg.user "b"] 2).length = 2 ∧
    (trim [Msg.system "s", Msg.user "a", Msg.user "b"] 2).head? = some (Msg.system "s") :=
  ⟨(C4_trim_correct.1 [Msg.system "s", Msg.user "a", Msg.user "b"] 2 (by decide) (by decide)).1,
   (C4_trim_correct.1 [Msg.system "s", Msg.user "a", Msg.user "b"] 2 (by decide) (by decide)).2.1⟩

/-- C1: the code contradicts the claim (and its own run_sql_query tool
    description, which promises GUI confirmation before execution): a
    model-requested DROP TABLE users is classified destructive, yet the
    send_chat turn executes it immediately on the database — one execution,
    a commit, and a tool result reporting success instead of a message naming
    the blocked command; the continue_ai_conversation path executes it too. -/
theorem C1_destructive_query_executed :
    (classify "DROP TABLE users").is_destructive = true ∧
    run_query (some dbDdl) "DROP TABLE users" =
      ⟨Option.none, RQPayload.message "Query executed successfully: DROP TABLE users",
        true, true⟩ ∧
    (send_chat initState "drop the users table"
        (.ok ⟨Option.none, some [dropCall]⟩) (some dbDdl)).1.dbExecutions = 1 ∧
    (send_chat initState "drop the users table"
        (.ok ⟨Option.none, some [dropCall]⟩) (some dbDdl)).1.history =
      [Msg.user "drop the users table", Msg.assistantToolCalls [dropCall],
       Msg.tool "call_9" ⟨"DROP TABLE users", Option.none,
         RQPayload.message "Query executed successfully: DROP TABLE users"⟩] ∧
    (continue_ai_conversation initState (.ok ⟨Option.none, some [dropCall]⟩)
        (some dbDdl)).1.dbExecutions = 1 := by
  decide

/-- C3 counterexample: the stored conversation state does not begin with a
    system message — it is created empty, and clear_chat replaces it with the
    empty list, not with a single-system-message state. -/
theorem C3_counterexample :
    initState.history = [] ∧
    (clear_chat ⟨[Msg.user "hi", Msg.assistantText "hello"], Option.none, "q", 2,
        false⟩).history = [] ∧
    (clear_chat ⟨[Msg.user "hi", Msg.assistantText "hello"], Option.none, "q", 2,
        false⟩).history.head? = Option.none := by
  decide

/-- C3 amended: the stored chat history never contains a system message (it
    starts empty and clear_chat resets it to empty); instead every model
    request prepends exactly one fresh system message at index 0 via
    messages_for_ai. -/
theorem C3_system_prompt_per_request :
    initState.history = [] ∧
    (∀ st : GuiState, (clear_chat st).history = []) ∧
    (∀ ops : List Op, noSystemMsgs (runOps initState ops).history = true) ∧
    (∀ (sys : String) (h : List Msg),
      (messages_for_ai sys h).head? = some (Msg.system sys)) ∧
    (∀ (sys : String) (h : List Msg), noSystemMsgs h = true →
      ((messages_for_ai sys h).filter Msg.isSystem).length = 1) := by
  refine ⟨rfl, fun st => rfl, ?_, fun sys h => rfl, ?_⟩
  · intro ops
    exact runOps_noSystem ops initState (by decide)
  · intro sys h hns
    have hfil : h.filter Msg.isSystem = [] := by
      rw [List.filter_eq_nil_iff]
      intro a ha
      have := (List.all_eq_true.mp hns) a ha
      simpa using this
    simp [messages_for_ai, List.filter_cons, Msg.isSystem, hfil]

/-- Witness for C3: a single-user-message history gives a request with
    exactly one system message. -/
theorem C3_system_prompt_per_request_witness :
    ((messages_for_ai "prompt" [Msg.user "u"]).filter Msg.isSystem).length = 1 :=
  C3_system_prompt_per_request.2.2.2.2 "prompt" [Msg.user "u"] (by decide)

/-- C5 counterexample: the follow-up request built by
    continue_ai_conversation goes through ask_ai_with_tools and therefore
    offers the tool schema (tool_choice auto); a tool call in the follow-up
    response is executed rather than forced into natural language. -/
theorem C5_counterexample :
    (followupRequest "sys" []).tools = [run_sql_query_schema] ∧
    (followupRequest "sys" []).tools ≠ [] ∧
    (followupRequest "sys" []).tool_choice = some "auto" ∧
    (continue_ai_conversation initState
        (.ok ⟨Option.none, some [⟨"c2", "run_sql_query", .ok "SELECT 1"⟩]⟩)
        (some dbOk)).1.dbExecutions = 1 := by
  decide

/-- C5 amended: the follow-up model call after tool results offers the same
    single-tool schema with tool_choice auto (tools are offered, not
    withheld), and a run_sql_query tool call in the follow-up response is
    executed by the loop. -/
theorem C5_followup_offers_tools :
    (∀ (sys : String) (h : List Msg),
      (followupRequest sys h).tools = toolsOffered ∧
      (followupRequest sys h).messages = Msg.system sys :: h ∧
      (followupRequest sys h).tool_choice = some "auto") ∧
    toolsOffered = [run_sql_query_schema] ∧
    (∀ (st : GuiState) (tc : ToolCall) (q : String) (conn : Option DBConn),
      tc.name = "run_sql_query" → tc.args = .ok q →
      (continue_ai_conversation st (.ok ⟨Option.none, some [tc]⟩) conn).1.dbExecutions =
        st.dbExecutions + (if (run_query conn q).executedOnDb then 1 else 0)) := by
  refine ⟨fun sys h => ⟨rfl, rfl, rfl⟩, rfl, ?_⟩
  intro st tc q conn hname hargs
  have hpc : ∀ s : GuiState, processContinueToolCall s conn tc = executeSqlTool s conn q (some tc) := by
    intro s
    simp [processContinueToolCall, hargs, hname]
  have hcc : (continue_ai_conversation st (.ok ⟨Option.none, some [tc]⟩) conn).1 =
      (executeSqlTool ⟨st.history ++ [Msg.assistantToolCalls [tc]], st.pending, st.editor,
        st.dbExecutions, st.schemaRefreshed⟩ conn q (some tc)).1 := by
    simp only [continue_ai_conversation, ask_ai_with_tools_result, responseOf]
    unfold processContinueToolCalls
    rw [hpc]
    cases hx : executeSqlTool ⟨st.history ++ [Msg.assistantToolCalls [tc]], st.pending,
        st.editor, st.dbExecutions, st.schemaRefreshed⟩ conn q (some tc) with
    | mk s2 e2 => cases e2 <;> simp [processContinueToolCalls]
  rw [hcc, executeSqlTool_dbExec]

/-- Witness for C5: the follow-up loop executes a concrete SELECT tool
    call. -/
theorem C5_followup_offers_tools_witness :
    (continue_ai_conversation initState
        (.ok ⟨Option.none, some [⟨"c5", "run_sql_query", .ok "SELECT 2"⟩]⟩)
        (some dbOk)).1.dbExecutions =
      initState.dbExecutions +
        (if (run_query (some dbOk) "SELECT 2").executedOnDb then 1 else 0) :=
  C5_followup_offers_tools.2.2 initState ⟨"c5", "run_sql_query", .ok "SELECT 2"⟩
    "SELECT 2" (some dbOk) rfl rfl

/-- C6 counterexample: a 100-row result set is passed to the model in full
    inside the tool message — no count-plus-sample summary exists. -/
theorem C6_counterexample :
    (executeSqlTool initState (some ⟨Option.none, some ["col"], manyRows⟩) "SELECT x FROM t"
        (some ⟨"call_4", "run_sql_query", .ok "SELECT x FROM t"⟩)).1.history =
      [Msg.tool "call_4" ⟨"SELECT x FROM t", some ["col"], RQPayload.rows manyRows⟩] ∧
    manyRows.length = 100 := by
  decide

/-- C6 amended: for every executed select query the tool result appended for
    the model carries the full captured (query, columns, rows) verbatim —
    every row, however many — rather than a bounded summary. -/
theorem C6_tool_result_full_rows (st : GuiState) (c : DBConn) (q : String) (tc : ToolCall)
    (cols : List String) (w : String) (hra : c.raises = Option.none)
    (hsel : isSelectOrShow q = true) (hd : c.description = some cols)
    (hw : firstWord (pyStrip q) = some w) :
    ∃ st', executeSqlTool st (some c) q (some tc) = (st', Option.none) ∧
      st'.history = st.history ++ [Msg.tool tc.id ⟨q, some cols, RQPayload.rows c.rows⟩] := by
  unfold executeSqlTool
  rw [hw]
  simp only [run_query, hra, hsel, hd]
  split <;> exact ⟨_, rfl, by simp⟩

/-- Witness for C6: the concrete one-row connection. -/
theorem C6_tool_result_full_rows_witness :
    ∃ st', executeSqlTool initState (some dbOk) "SELECT 1"
        (some ⟨"c3", "run_sql_query", .ok "SELECT 1"⟩) = (st', Option.none) ∧
      st'.history = [Msg.tool "c3" ⟨"SELECT 1", some ["one"], RQPayload.rows [["1"]]⟩] := by
  obtain ⟨st', h1, h2⟩ := C6_tool_result_full_rows initState dbOk "SELECT 1"
    ⟨"c3", "run_sql_query", .ok "SELECT 1"⟩ ["one"] "SELECT" rfl (by decide) rfl (by decide)
  exact ⟨st', h1, by simpa using h2⟩

/-- C7 counterexample: a run_sql_query tool call with an empty query in the
    follow-up path raises IndexError in the DDL check after the database call;
    the exception is not caught — the turn ends with no textual error answer
    (only the assistant tool-call message was appended). -/
theorem C7_counterexample :
    continue_ai_conversation initState (.ok ⟨Option.none, some [emptyQueryCall]⟩)
        (some dbErr) =
      (⟨[Msg.assistantToolCalls [emptyQueryCall]], Option.none, "", 1, false⟩,
        some "IndexError") := by
  decide

/-- C7 amended: model-client exceptions are caught inside ask_ai_with_tools
    and surface as an AI Error textual answer, and database exceptions are
    caught inside run_query and returned as a message; history mutations are
    append-only so messages appended before a failure remain; but the
    JSONDecodeError of malformed tool arguments and the IndexError of a
    token-free query are not caught and end the turn with no textual
    answer. -/
theorem C7_error_boundaries :
    (∀ (st : GuiState) (t e : String) (conn : Option DBConn), pyStrip t ≠ "" →
      send_chat st t (.error e) conn =
        ({ st with history := st.history ++
            [Msg.user (pyStrip t), Msg.assistantText ("AI Error: " ++ e)] }, Option.none)) ∧
    (∀ (c : DBConn) (q e : String), c.raises = some e →
      (run_query (some c) q).result = RQPayload.message e) ∧
    (∀ (st : GuiState) (t : String) (o : Except String RawMsg) (conn : Option DBConn),
      ∃ extra, (send_chat st t o conn).1.history = st.history ++ extra) ∧
    (∀ (st : GuiState) (o : Except String RawMsg) (conn : Option DBConn),
      ∃ extra, (continue_ai_conversation st o conn).1.history = st.history ++ extra) ∧
    (∀ (st : GuiState) (t : String) (o : Except String RawMsg) (conn : Option DBConn),
      errUncaught (send_chat st t o conn).2) ∧
    (∀ (st : GuiState) (o : Except String RawMsg) (conn : Option DBConn),
      errUncaught (continue_ai_conversation st o conn).2) := by
  refine ⟨?_, ?_, ?_, ?_, send_chat_err, continue_ai_conversation_err⟩
  · intro st t e conn ht
    have hne := ai_error_ne_empty e
    have hresp : responseOf (ask_ai_with_tools_result (.error e)) =
        ModelResponse.contentResp ("AI Error: " ++ e) := by
      simp only [ask_ai_with_tools_result, responseOf]
      rw [hne]
      simp
    simp [send_chat, ht, hresp]
  · intro c q e hr
    simp [run_query, hr]
  · intro st t o conn
    obtain ⟨extra, h1, _⟩ := send_chat_hist st t o conn
    exact ⟨extra, h1⟩
  · intro st o conn
    obtain ⟨extra, h1, _⟩ := continue_ai_conversation_hist st o conn
    exact ⟨extra, h1⟩

/-- Witness for C7: a model-client exception on a concrete turn becomes a
    textual AI Error answer with no uncaught exception. -/
theorem C7_error_boundaries_witness :
    send_chat initState "hi" (.error "boom") Option.none =
      ({ initState with history := [Msg.user "hi", Msg.assistantText "AI Error: boom"] },
        Option.none) := by
  have h := C7_error_boundaries.1 initState "hi" "boom" Option.none (by decide)
  have e1 : pyStrip "hi" = "hi" := by decide
  rw [e1] at h
  simpa using h

/-- C8 counterexample: a reachable history violating the tool-reference
    invariant — an empty-query tool call leaves pending_tool_call set,
    clear_chat empties the history without clearing it, and a manual run then
    appends a tool message with no preceding assistant message. -/
theorem C8_counterexample :
    toolRefsOk (runOps initState c8Trace).history = false ∧
    (runOps initState c8Trace).history =
      [Msg.tool "call_1" ⟨"SELECT 1", some ["one"], RQPayload.rows [["1"]]⟩] := by
  decide

/-- C8 amended: in every state reachable without the clear-chat event, each
    tool message references a tool_call_id of a preceding assistant message's
    tool_calls (clear_chat breaks the invariant because it does not reset
    pending_tool_call). -/
theorem C8_tool_refs_invariant (ops : List Op)
    (hops : (ops.all fun op => !op.isClear) = true) :
    toolRefsOk (runOps initState ops).history = true :=
  (guiInv_split (runOps_inv ops initState (by decide) hops)).1

/-- Witness for C8: a concrete clear-free trace satisfies the invariant. -/
theorem C8_tool_refs_invariant_witness :
    toolRefsOk (runOps initState
      [Op.send "hello" (.ok ⟨some "hi there", Option.none⟩) (some dbOk)]).history = true :=
  C8_tool_refs_invariant _ (by decide)

/-- C9 counterexample: the offered tool schema has exactly one tool,
    run_sql_query; neither get_table_details nor ask_user_clarification is
    offered. -/
theorem C9_counterexample :
    (ask_ai_with_tools_request []).tools.length = 1 ∧
    ((ask_ai_with_tools_request []).tools.map ToolSchema.name) = ["run_sql_query"] ∧
    ((ask_ai_with_tools_request []).tools.map ToolSchema.name).contains "get_table_details"
      = false ∧
    ((ask_ai_with_tools_request []).tools.map ToolSchema.name).contains "ask_user_clarification"
      = false := by
  decide

/-- C9 amended: every model request that offers tools offers exactly the
    single tool run_sql_query with one required string parameter query
    (tool_choice auto); the follow-up request is built through the same
    function. -/
theorem C9_single_tool_offered :
    (∀ msgs : List Msg,
      (ask_ai_with_tools_request msgs).tools = [run_sql_query_schema] ∧
      (ask_ai_with_tools_request msgs).messages = msgs ∧
      (ask_ai_with_tools_request msgs).tool_choice = some "auto") ∧
    run_sql_query_schema.name = "run_sql_query" ∧
    run_sql_query_schema.params = [⟨"query", "string", true⟩] ∧
    (∀ (sys : String) (h : List Msg),
      followupRequest sys h = ask_ai_with_tools_request (messages_for_ai sys h)) :=
  ⟨fun _ => ⟨rfl, rfl, rfl⟩, rfl, rfl, fun _ _ => rfl⟩

end App
